import Mathlib

/-!
Shallow embedding of `qualtrics_tagger/__init__.py`.

Paths and tokens are modelled as `List Char`; bytes as `Nat`.  Python's
`str.replace(a, b)` with single-character arguments is a character map;
`str.lower`, `str.startswith`, `str.endswith` are modelled directly.
The OS path separator `os.path.sep` is a parameter `sep : Char`
(`/` on POSIX, `\` on Windows).
-/

/-- Model of Python `s.replace(a, b)` when `a` and `b` are single
characters: map every occurrence of `a` in `s` to `b`. -/
def pyReplaceChar (a b : Char) (s : List Char) : List Char :=
  s.map (fun c => if c = a then b else c)

/-- Model of Python `s.lower()` at the character level. -/
def pyLower (s : List Char) : List Char :=
  s.map Char.toLower

/-- Model of Python `s.startswith(pre)`. -/
def pyStartswith (pre s : List Char) : Bool :=
  decide (s.take pre.length = pre)

/-- Model of Python `s.endswith(suf)`. -/
def pyEndswith (suf s : List Char) : Bool :=
  decide (s.drop (s.length - suf.length) = suf ∧ suf.length ≤ s.length)

/-- `_is_image` from the source: lowercase the path and test for a
`.png` or `.jpg` suffix. -/
def _is_image (path : List Char) : Bool :=
  pyEndswith ".png".data (pyLower path) || pyEndswith ".jpg".data (pyLower path)

/-- `image_path_to_ed` from the source: replace every native separator
with a pipe and prepend the literal prefix `anno_`. -/
def image_path_to_ed (sep : Char) (path : List Char) : List Char :=
  "anno_".data ++ pyReplaceChar sep '|' path

/-- `ed_to_image_path` from the source: `assert ed.startswith('anno_')`
(modelled as `Except.error` for the `AssertionError`), then take
`ed[5:]` and replace every pipe with the native separator. -/
def ed_to_image_path (sep : Char) (ed : List Char) : Except String (List Char) :=
  if pyStartswith "anno_".data ed then
    Except.ok (pyReplaceChar '|' sep (ed.drop 5))
  else
    Except.error "AssertionError"

/-- One status poll as returned by `_get_export_progress` (the `result`
object of the Qualtrics response).  `infoReason` models the
`r[ 'info' ][ 'reason' ]` lookup used on the failure branch. -/
structure PollResponse where
  status : String
  percentComplete : Nat
  file : String
  infoReason : String
deriving Repr, DecidableEq

/-- Observable actions performed by `_get_export_result`: a status
poll, a `time.sleep(1.5)` (duration in time-units), and a streamed
GET of the result file. -/
inductive ExportEvent where
  | poll
  | sleep (duration : ℚ)
  | download (url : String)
deriving Repr, DecidableEq

/-- Outcome of `_get_export_result`: success carrying the bytes written
to `out_file`, the `RuntimeError` message on failure, or `pending` when
the modelled environment has supplied no further poll responses (the
real loop would keep polling forever). -/
inductive ExportOutcome where
  | success (written : List Nat)
  | failure (msg : String)
  | pending
deriving Repr, DecidableEq

/-- `shutil.COPY_BUFSIZE` on POSIX: `copyfileobj`'s default chunk. -/
def COPY_BUFSIZE : Nat := 64 * 1024

/-- Split a stream into chunks of `sz` bytes, as `shutil.copyfileobj`
reads it.  The `0` chunk size never arises in this program
(`copyfileobj` substitutes `COPY_BUFSIZE` for a falsy length). -/
def chunksOf : Nat → List α → List (List α)
  | _, [] => []
  | 0, _ :: _ => []
  | Nat.succ n, a :: rest =>
    (a :: rest).take (n + 1) :: chunksOf (n + 1) ((a :: rest).drop (n + 1))
termination_by _ l => l.length
decreasing_by
  simp only [List.length_drop, List.length_cons]
  omega

/-- Model of `shutil.copyfileobj(r.raw, out_file)`: read the source in
`COPY_BUFSIZE` chunks and write each, yielding the written bytes. -/
def copyfileobj (src : List Nat) : List Nat :=
  (chunksOf COPY_BUFSIZE src).flatten

/-- `_get_export_result` from the source, driven by the environment:
`polls` is the sequence of successive `_get_export_progress` results and
`serve url` the bytes the remote host returns for a streamed GET of
`url`.  Returns the trace of observable events and the outcome.
On `in progress` the loop sleeps 1.5 time-units and repeats; on
`complete` it downloads `r[ 'file' ]` and copies the stream into
`out_file`; on any other status it raises
`RuntimeError('Report could not be exported: ' + r[ 'info' ][ 'reason' ])`. -/
def getExportResult (serve : String → List Nat) :
    List PollResponse → List ExportEvent × ExportOutcome
  | [] => ([], ExportOutcome.pending)
  | r :: rest =>
    if r.status = "in progress" then
      let next := getExportResult serve rest
      (ExportEvent.poll :: ExportEvent.sleep (3 / 2 : ℚ) :: next.1, next.2)
    else if r.status = "complete" then
      ([ExportEvent.poll, ExportEvent.download r.file],
        ExportOutcome.success (copyfileobj (serve r.file)))
    else
      ([ExportEvent.poll],
        ExportOutcome.failure ("Report could not be exported: " ++ r.infoReason))

/-- One member of the downloaded ZIP archive, as `get_responses` sees it
after `json.loads(zip.read(filename))`: its name in `zip.namelist()`
order and the parsed `responses` list.  Response records are abstract
(`α`). -/
structure ZipMember (α : Type) where
  name : List Char
  responses : List α

/-- `get_responses` (its aggregation step) from the source: loop over
`zip.namelist()` and accumulate `responses += data[ 'responses' ]`. -/
def get_responses {α : Type} (members : List (ZipMember α)) : List α :=
  members.foldl (fun acc m => acc ++ m.responses) []

/-- The suffix of the `RuntimeError` message `create` raises for a
path containing a pipe. -/
def pipeErrorSuffix : List Char :=
  ": image paths cannot contain the pipe symbol (|).".data

/-- The image-list-building loop of `create`: `walked` holds the
relative paths of the files produced by `os.walk` in walk order
(`os.walk` and `os.path.relpath` are OS collaborators; `_is_image` on
the relative path agrees with `_is_image` on the joined path since both
share the filename suffix).  Non-images are skipped; the first image
path containing `|` aborts the walk with the `RuntimeError` payload. -/
def gatherImages : List (List Char) → Except (List Char × List Char) (List (List Char))
  | [] => Except.ok []
  | p :: rest =>
    if _is_image p then
      if '|' ∈ p then Except.error (p, p ++ pipeErrorSuffix)
      else
        match gatherImages rest with
        | Except.ok imgs => Except.ok (p :: imgs)
        | Except.error e => Except.error e
    else gatherImages rest

/-- Side-effecting steps of `create` after the image list is built:
local preprocessing of one image, the network upload of one image, and
the network call importing the survey. -/
inductive CreateOp where
  | processImage (relpath : List Char)
  | uploadImage (relpath : List Char)
  | importSurvey
deriving Repr, DecidableEq

/-- Is this step a network call?  Uploads and the survey import are
HTTP POSTs; `_process_image` is purely local. -/
def CreateOp.isNetwork : CreateOp → Bool
  | CreateOp.processImage _ => false
  | CreateOp.uploadImage _ => true
  | CreateOp.importSurvey => true

/-- `create` from the source, abstracted to its step sequence: build the
image list (raising on a piped path before anything else), then
preprocess every image, then upload every image, then import the
survey.  Returns the steps performed and, when the pipe check fires,
the `RuntimeError` payload `(offending path, message)` — in which case
the raise aborts `create` before any step runs. -/
def createModel (walked : List (List Char)) :
    List CreateOp × Option (List Char × List Char) :=
  match gatherImages walked with
  | Except.error e => ([], some e)
  | Except.ok imgs =>
    (imgs.map CreateOp.processImage ++ imgs.map CreateOp.uploadImage
      ++ [CreateOp.importSurvey], none)

/-- Python truthiness of the `max_image_width : Union[int, None]`
argument: `None` and `0` are falsy. -/
def pyFalsy : Option Nat → Bool
  | none => true
  | some n => n == 0

/-- Steps `_process_image` can perform: `os.symlink` with
`shutil.copy` fallback (producing the destination from the source), and
the scipy read / resize / save pipeline. -/
inductive ImageOp where
  | linkOrCopy (src dst : List Char)
  | readImg (src : List Char)
  | resizeImg (maxWidth : Nat)
  | saveImg (dst : List Char)
deriving Repr, DecidableEq

/-- `_process_image` from the source, over a filesystem `fs` mapping a
path to the bytes of the file there (`none` when absent, so
`os.path.exists out_path` is `(fs out_path).isSome`).  If the
destination already exists it returns at once; otherwise a falsy
`max_image_width` symlinks or copies, and a truthy one runs the scipy
pipeline.  Returns the steps performed. -/
def _process_image (fs : List Char → Option (List Nat))
    (in_path out_path : List Char) (max_image_width : Option Nat) :
    List ImageOp :=
  if (fs out_path).isSome then []
  else if pyFalsy max_image_width then [ImageOp.linkOrCopy in_path out_path]
  else
    [ImageOp.readImg in_path,
      ImageOp.resizeImg (max_image_width.getD 0),
      ImageOp.saveImg out_path]

/-- Effect of one `ImageOp` on the filesystem; `transformed` is the
(resized) image content the scipy pipeline would save, an oracle since
image decoding is external. -/
def applyImageOp (transformed : List Nat)
    (fs : List Char → Option (List Nat)) : ImageOp → (List Char → Option (List Nat))
  | ImageOp.linkOrCopy src dst => fun p => if p = dst then fs src else fs p
  | ImageOp.readImg _ => fs
  | ImageOp.resizeImg _ => fs
  | ImageOp.saveImg dst => fun p => if p = dst then some transformed else fs p

/-- Run a list of `ImageOp`s over the filesystem. -/
def runImageOps (transformed : List Nat)
    (fs : List Char → Option (List Nat)) : List ImageOp → (List Char → Option (List Nat))
  | [] => fs
  | op :: rest => runImageOps transformed (applyImageOp transformed fs op) rest

/-! ## Lemmas and claim theorems -/

lemma pyReplaceChar_round (sep : Char) :
    ∀ p : List Char, '|' ∉ p →
      pyReplaceChar '|' sep (pyReplaceChar sep '|' p) = p := by
  intro p
  induction p with
  | nil => intro _; rfl
  | cons c cs ih =>
    intro hp
    simp only [List.mem_cons, not_or] at hp
    obtain ⟨hc, hcs⟩ := hp
    simp only [pyReplaceChar, List.map_cons, List.cons.injEq]
    constructor
    · by_cases h : c = sep
      · simp [h]
      · rw [if_neg h, if_neg (fun e => hc e.symm)]
    · exact ih hcs

lemma ed_to_image_path_append (sep : Char) (rest : List Char) :
    ed_to_image_path sep ("anno_".data ++ rest) =
      Except.ok (pyReplaceChar '|' sep rest) := by
  have hlen : ("anno_".data).length = 5 := by decide
  have htake : ("anno_".data ++ rest).take 5 = "anno_".data := by
    rw [← hlen, List.take_left]
  have hdrop : ("anno_".data ++ rest).drop 5 = rest := by
    rw [← hlen, List.drop_left]
  simp [ed_to_image_path, pyStartswith, hlen, htake, hdrop]

/-- C1: for every relative path `p` containing no pipe character,
`ed_to_image_path (image_path_to_ed p) = p`, and `image_path_to_ed` is
injective over pipe-free paths. -/
theorem codec_roundtrip_injective (sep : Char) (p : List Char) (hp : '|' ∉ p) :
    ed_to_image_path sep (image_path_to_ed sep p) = Except.ok p ∧
    ∀ q : List Char, '|' ∉ q →
      image_path_to_ed sep p = image_path_to_ed sep q → p = q := by
  have round : ∀ r : List Char, '|' ∉ r →
      ed_to_image_path sep (image_path_to_ed sep r) = Except.ok r := by
    intro r hr
    rw [image_path_to_ed, ed_to_image_path_append, pyReplaceChar_round sep r hr]
  refine ⟨round p hp, ?_⟩
  intro q hq heq
  have h1 := round p hp
  rw [heq] at h1
  have h2 := round q hq
  simpa using h1.symm.trans h2

/-- Witness for C1 at the POSIX separator and the path `a/b.png`. -/
theorem codec_roundtrip_injective_witness :
    ed_to_image_path '/' (image_path_to_ed '/' "a/b.png".data) =
      Except.ok "a/b.png".data ∧
    ∀ q : List Char, '|' ∉ q →
      image_path_to_ed '/' "a/b.png".data = image_path_to_ed '/' q →
        "a/b.png".data = q :=
  codec_roundtrip_injective '/' "a/b.png".data (by decide)

/-- C6: `ed_to_image_path` fails (the `assert`) on every token that
does not start with `anno_`, and on `anno_` + rest it returns rest with
every pipe replaced by the native separator. -/
theorem ed_to_image_path_contract (sep : Char) (tok : List Char) :
    (pyStartswith "anno_".data tok = false →
      ed_to_image_path sep tok = Except.error "AssertionError") ∧
    (∀ rest : List Char, tok = "anno_".data ++ rest →
      ed_to_image_path sep tok =
        Except.ok (rest.map (fun c => if c = '|' then sep else c))) := by
  constructor
  · intro h
    simp [ed_to_image_path, h]
  · intro rest hrest
    rw [hrest, ed_to_image_path_append]
    rfl

/-- Witness for C6: a prefix-less token fails, `anno_a|b` decodes to
`a/b`. -/
theorem ed_to_image_path_contract_witness :
    ed_to_image_path '/' "bogus".data = Except.error "AssertionError" ∧
    ed_to_image_path '/' ("anno_".data ++ "a|b".data) =
      Except.ok ("a|b".data.map (fun c => if c = '|' then '/' else c)) :=
  ⟨(ed_to_image_path_contract '/' "bogus".data).1 (by decide),
    (ed_to_image_path_contract '/' ("anno_".data ++ "a|b".data)).2 "a|b".data rfl⟩

/-- C7: `image_path_to_ed p` is the literal `anno_` followed by `p`
with every native separator replaced by a pipe; positionally, output
character `5 + i` is input character `i` when that is not the
separator, and `|` when it is, so nothing else is altered. -/
theorem image_path_to_ed_spec (sep : Char) (p : List Char) :
    image_path_to_ed sep p =
      "anno_".data ++ p.map (fun c => if c = sep then '|' else c) ∧
    (image_path_to_ed sep p).length = 5 + p.length ∧
    ∀ i, ∀ h : i < p.length,
      (image_path_to_ed sep p)[5 + i]? =
        some (if p.get ⟨i, h⟩ = sep then '|' else p.get ⟨i, h⟩) := by
  refine ⟨rfl, ?_, ?_⟩
  · simp [image_path_to_ed, pyReplaceChar]
    omega
  · intro i h
    have hlen : ("anno_".data).length = 5 := by decide
    rw [image_path_to_ed, pyReplaceChar,
      List.getElem?_append_right (by omega)]
    simp [hlen, List.getElem?_map, List.getElem?_eq_getElem h, List.get_eq_getElem]

/-- Witness for C7 at `a/b` with the POSIX separator: position 0 holds
`a` (unaltered) and position 1 holds `|` (the replaced separator). -/
theorem image_path_to_ed_spec_witness :
    (image_path_to_ed '/' "a/b".data)[5 + 0]? =
      some (if ("a/b".data.get ⟨0, by decide⟩) = '/' then '|'
        else "a/b".data.get ⟨0, by decide⟩) ∧
    (image_path_to_ed '/' "a/b".data)[5 + 1]? =
      some (if ("a/b".data.get ⟨1, by decide⟩) = '/' then '|'
        else "a/b".data.get ⟨1, by decide⟩) :=
  ⟨(image_path_to_ed_spec '/' "a/b".data).2.2 0 (by decide),
    (image_path_to_ed_spec '/' "a/b".data).2.2 1 (by decide)⟩

lemma get_responses_foldl {α : Type} (l : List (ZipMember α)) (acc : List α) :
    l.foldl (fun a m => a ++ m.responses) acc =
      acc ++ (l.map ZipMember.responses).flatten := by
  induction l generalizing acc with
  | nil => simp
  | cons m rest ih => simp [List.foldl_cons, ih, List.append_assoc]

/-- C4: `get_responses` returns the concatenation of the members'
`responses` lists in archive-listing order; in particular two members
`[A, B]` and `[C]` yield `[A, B, C]`. -/
theorem get_responses_concatenation {α : Type} (members : List (ZipMember α))
    (A B C : α) :
    get_responses members = (members.map ZipMember.responses).flatten ∧
    get_responses
      [ZipMember.mk "file1.json".data [A, B], ZipMember.mk "file2.json".data [C]] =
      [A, B, C] := by
  constructor
  · rw [get_responses, get_responses_foldl]
    rfl
  · rfl

lemma chunksOf_flatten {α : Type} (n : Nat) :
    ∀ l : List α, (chunksOf (n + 1) l).flatten = l
  | [] => by rw [chunksOf]; rfl
  | a :: rest => by
    rw [chunksOf, List.flatten_cons,
      chunksOf_flatten n ((a :: rest).drop (n + 1)), List.take_append_drop]
termination_by l => l.length
decreasing_by
  simp only [List.length_drop, List.length_cons]
  omega

lemma copyfileobj_id (src : List Nat) : copyfileobj src = src := by
  have h : COPY_BUFSIZE = 65535 + 1 := rfl
  rw [copyfileobj, h, chunksOf_flatten]

/-- C2: on the poll sequence `[InProgress 10, InProgress 55, Complete
url]`, `_get_export_result` polls, sleeps 1.5 units, polls, sleeps 1.5
units, polls, then issues exactly one download from `url`, writes
exactly the bytes served at `url`, and succeeds; and there is no
maximum retry count — `n` in-progress responses followed by `Complete
url` succeed the same way after `n` sleeps, for every `n`. -/
theorem export_success_two_waits (serve : String → List Nat) (url : String) :
    getExportResult serve
      [PollResponse.mk "in progress" 10 "" "",
        PollResponse.mk "in progress" 55 "" "",
        PollResponse.mk "complete" 100 url ""] =
      ([ExportEvent.poll, ExportEvent.sleep (3 / 2 : ℚ),
        ExportEvent.poll, ExportEvent.sleep (3 / 2 : ℚ),
        ExportEvent.poll, ExportEvent.download url],
        ExportOutcome.success (serve url)) ∧
    ∀ n : Nat, getExportResult serve
        (List.replicate n (PollResponse.mk "in progress" 10 "" "") ++
          [PollResponse.mk "complete" 100 url ""]) =
      ((List.replicate n
          [ExportEvent.poll, ExportEvent.sleep (3 / 2 : ℚ)]).flatten ++
        [ExportEvent.poll, ExportEvent.download url],
        ExportOutcome.success (serve url)) := by
  constructor
  · simp [getExportResult, copyfileobj_id]
  · intro n
    induction n with
    | zero => simp [getExportResult, copyfileobj_id]
    | succ k ih =>
      rw [List.replicate_succ, List.cons_append, getExportResult, ih]
      simp [List.replicate_succ]

/-- C3: on the poll sequence `[InProgress 20, Failed "quota exceeded"]`
(the Qualtrics `failed` status), `_get_export_result` polls, sleeps 1.5
units once, polls, and stops with the `RuntimeError` message carrying
the service reason `quota exceeded`; the trace contains no download and
no further poll. -/
theorem export_failure_one_wait (serve : String → List Nat) :
    getExportResult serve
      [PollResponse.mk "in progress" 20 "" "",
        PollResponse.mk "failed" 0 "" "quota exceeded"] =
      ([ExportEvent.poll, ExportEvent.sleep (3 / 2 : ℚ), ExportEvent.poll],
        ExportOutcome.failure
          ("Report could not be exported: " ++ "quota exceeded")) := by
  simp [getExportResult]

/-- C10: any poll response whose status is neither `in progress` nor
`complete` is terminal: the loop raises at once with the message built
from `info.reason`, with no download and no further polling of later
responses. -/
theorem export_unknown_status_terminal (serve : String → List Nat)
    (r : PollResponse) (rest : List PollResponse)
    (h1 : r.status ≠ "in progress") (h2 : r.status ≠ "complete") :
    getExportResult serve (r :: rest) =
      ([ExportEvent.poll],
        ExportOutcome.failure
          ("Report could not be exported: " ++ r.infoReason)) := by
  rw [getExportResult, if_neg h1, if_neg h2]

/-- Witness for C10 at the out-of-taxonomy status `cancelled`, with a
later `complete` response that is never polled. -/
theorem export_unknown_status_terminal_witness :
    getExportResult (fun _ => [])
      [PollResponse.mk "cancelled" 0 "" "server cancelled it",
        PollResponse.mk "complete" 100 "u" ""] =
      ([ExportEvent.poll],
        ExportOutcome.failure
          ("Report could not be exported: " ++ "server cancelled it")) :=
  export_unknown_status_terminal (fun _ => []) _ _ (by decide) (by decide)

lemma gatherImages_error_of_piped :
    ∀ l : List (List Char),
      (∃ p ∈ l, _is_image p = true ∧ '|' ∈ p) →
      ∃ q, _is_image q = true ∧ '|' ∈ q ∧ q ∈ l ∧
        gatherImages l = Except.error (q, q ++ pipeErrorSuffix) := by
  intro l
  induction l with
  | nil => rintro ⟨p, hp, _⟩; exact absurd hp (List.not_mem_nil p)
  | cons p rest ih =>
    rintro ⟨x, hx, hximg, hxpipe⟩
    by_cases himg : _is_image p = true
    · by_cases hpipe : '|' ∈ p
      · exact ⟨p, himg, hpipe, List.mem_cons_self p rest, by
          rw [gatherImages, if_pos himg, if_pos hpipe]⟩
      · have hxrest : x ∈ rest := by
          rcases List.mem_cons.mp hx with h | h
          · exact absurd (h ▸ hxpipe) hpipe
          · exact h
        obtain ⟨q, hqimg, hqpipe, hqmem, hqerr⟩ := ih ⟨x, hxrest, hximg, hxpipe⟩
        refine ⟨q, hqimg, hqpipe, List.mem_cons_of_mem p hqmem, ?_⟩
        rw [gatherImages, if_pos himg, if_neg hpipe, hqerr]
    · have hxrest : x ∈ rest := by
        rcases List.mem_cons.mp hx with h | h
        · exact absurd (h ▸ hximg) himg
        · exact h
      obtain ⟨q, hqimg, hqpipe, hqmem, hqerr⟩ := ih ⟨x, hxrest, hximg, hxpipe⟩
      refine ⟨q, hqimg, hqpipe, List.mem_cons_of_mem p hqmem, ?_⟩
      rw [gatherImages, if_neg himg, hqerr]

/-- C5: when some image path in the walked batch contains a pipe,
`create` aborts with the `RuntimeError` reporting an offending path,
and its step trace is empty — no preprocessing, no upload, no survey
import, hence zero network calls. -/
theorem create_rejects_piped_paths (walked : List (List Char))
    (h : ∃ p ∈ walked, _is_image p = true ∧ '|' ∈ p) :
    ∃ q, _is_image q = true ∧ '|' ∈ q ∧ q ∈ walked ∧
      createModel walked = ([], some (q, q ++ pipeErrorSuffix)) := by
  obtain ⟨q, hqimg, hqpipe, hqmem, hqerr⟩ := gatherImages_error_of_piped walked h
  exact ⟨q, hqimg, hqpipe, hqmem, by rw [createModel, hqerr]⟩

/-- Witness for C5 on the batch `[ok.png, a|b.png]`: the second path
trips the pre-flight check and the step trace is empty. -/
theorem create_rejects_piped_paths_witness :
    ∃ q, _is_image q = true ∧ '|' ∈ q ∧
      q ∈ ["ok.png".data, "a|b.png".data] ∧
      createModel ["ok.png".data, "a|b.png".data] =
        ([], some (q, q ++ pipeErrorSuffix)) :=
  create_rejects_piped_paths ["ok.png".data, "a|b.png".data]
    ⟨"a|b.png".data, by decide, by decide, by decide⟩

/-- C9: when the destination already exists, `_process_image` performs
no read, resize, copy, link or save at all — its step trace is empty —
and the filesystem, in particular the existing destination artifact, is
left unchanged. -/
theorem process_image_skips_existing (fs : List Char → Option (List Nat))
    (in_path out_path : List Char) (max_image_width : Option Nat)
    (transformed : List Nat) (h : (fs out_path).isSome = true) :
    _process_image fs in_path out_path max_image_width = [] ∧
    runImageOps transformed fs
      (_process_image fs in_path out_path max_image_width) = fs ∧
    runImageOps transformed fs
      (_process_image fs in_path out_path max_image_width) out_path =
      fs out_path := by
  have hempty : _process_image fs in_path out_path max_image_width = [] := by
    rw [_process_image, if_pos h]
  exact ⟨hempty, by rw [hempty, runImageOps], by rw [hempty, runImageOps]⟩

/-- Witness for C9 on a filesystem where the destination holds one
byte. -/
theorem process_image_skips_existing_witness :
    _process_image (fun _ => some [7]) "in.png".data "out.png".data
      (some 900) = [] ∧
    runImageOps [] (fun _ => some [7])
      (_process_image (fun _ => some [7]) "in.png".data "out.png".data
        (some 900)) = (fun _ => some [7]) ∧
    runImageOps [] (fun _ => some [7])
      (_process_image (fun _ => some [7]) "in.png".data "out.png".data
        (some 900)) "out.png".data = (fun _ => some [7]) "out.png".data :=
  process_image_skips_existing (fun _ => some [7]) "in.png".data
    "out.png".data (some 900) [] rfl
